import Mathlib

/-!
Shallow embedding of the multi-agent allostatic simulation core
(agents.py and model.py): agent physiology, action choice, the world tick,
and the external food-deposit entry point.

Real-valued quantities of the Python code (numpy floats) are modelled as
real numbers; `np.exp` is `Real.exp`.  The two pseudo-random sources of the
code (the process-global numpy generator used by `np.random.*`, and the
per-model seeded source `self.random` used for agent placement and the
per-tick shuffle) are modelled as oracle streams of draws (`Rng`): each
draw consumes the next stream element and clamps it into the requested
range, which is faithful to which *source* each call reads from, the
property the claims are about.  The library grid (`mesa.space.MultiGrid`,
`torus=False`) contributes only its bounds check `out_of_bounds`, modelled
by `inBounds`; `np.random.choice(n, p=probs)` is modelled by inverse-CDF
sampling of a uniform draw.  The per-tick shuffle produces some permutation
of the agent list; theorems about a tick quantify over every model state,
hence over every order of the agent list, which subsumes the shuffle.
-/

namespace Sim

/-! ### Configuration constants (agents.py) -/

def METABOLISM : ℝ := 0.15
def MAX_ENERGY : ℝ := 100.0
def CRITICAL_ENERGY : ℝ := 50.0
def FOOD_INTAKE : ℝ := 10.0
def IDEAL_TEMP : ℝ := 25.0
def INIT_ENERGY_MIN : ℝ := 40.0
def INIT_ENERGY_MAX : ℝ := 95.0
def SCENT_DECAY : ℝ := 0.94
def MEMORY_DECAY : ℝ := 0.90
def FOOD_SIGNAL_DURATION : ℝ := 15.0
def SOCIAL_WEIGHT : ℝ := 3.0
def WEIGHT_TEMP : ℝ := 1.0
def WEIGHT_ENERGY : ℝ := 4.0
def BETA_BASE : ℝ := 6.0
def BETA_MAX : ℝ := 30.0
def WEIGHT_EPISTEMIC : ℝ := 1.5
def EXPLORATION_FACTOR : ℝ := 10.0
def ETA : ℝ := 0.1
def MU_AFFECT : ℝ := 0.4
def SIGMA : ℝ := 0.8
def NUM_FOOD_PATCHES : ℕ := 1
def FOOD_PATCH_AMOUNT_MIN : ℝ := 30
def FOOD_PATCH_AMOUNT_MAX : ℝ := 80
def TEMP_BASE_MAX : ℝ := 28.0
def TEMP_SPOT_1 : ℝ := 14.0
def TEMP_SPOT_2 : ℝ := 12.0

/-- np.clip on a scalar. -/
def clip (x lo hi : ℝ) : ℝ := min (max x lo) hi

/-! ### Random sources as oracle streams -/

/-- A pseudo-random source: a stream of raw draws and a cursor.  Models both
the process-global numpy generator and the per-model seeded source. -/
structure Rng where
  stream : ℕ → ℝ
  idx : ℕ

def Rng.next (g : Rng) : ℝ × Rng :=
  (g.stream g.idx, ⟨g.stream, g.idx + 1⟩)

/-- np.random.uniform(lo, hi): one draw, clamped into the range. -/
def np_uniform (lo hi : ℝ) (g : Rng) : ℝ × Rng :=
  let r := g.next
  (max lo (min hi r.1), r.2)

/-- np.random.randint(lo, hi): one draw, an integer in the half-open range. -/
noncomputable def np_randint (lo hi : ℤ) (g : Rng) : ℤ × Rng :=
  let r := g.next
  (max lo (min (hi - 1) ⌊r.1⌋), r.2)

/-- Python random.randint(lo, hi) (inclusive range), the per-model source. -/
noncomputable def py_randint (lo hi : ℤ) (g : Rng) : ℤ × Rng :=
  let r := g.next
  (max lo (min hi ⌊r.1⌋), r.2)

/-! ### State -/

/-- AllostaticAgent state (agents.py lines 64-89). -/
structure AgentState where
  id : ℕ
  is_alive : Bool
  T_int : ℝ
  E_int : ℝ
  prev_total_error : Option ℝ
  valence_integrated : ℝ
  valence_bound : ℝ
  current_beta : ℝ
  visits : List ((ℤ × ℤ) × ℝ)
  visit_cleanup_counter : ℕ
  food_signal_timer : ℝ
  pos : ℤ × ℤ

/-- DualDriveModel state (model.py): grid dimensions, the four fields,
the active agent list and the dead counter. -/
structure ModelState where
  width : ℤ
  height : ℤ
  temperature : ℤ × ℤ → ℝ
  food : ℤ × ℤ → ℝ
  food_scent : ℤ × ℤ → ℝ
  shared_memory : ℤ × ℤ → ℝ
  agents : List AgentState
  dead_count : ℕ

/-- mesa MultiGrid bounds check (torus=False): the negation of
out_of_bounds. -/
def inBounds (w h : ℤ) (p : ℤ × ℤ) : Prop :=
  0 ≤ p.1 ∧ p.1 < w ∧ 0 ≤ p.2 ∧ p.2 < h

instance (w h : ℤ) (p : ℤ × ℤ) : Decidable (inBounds w h p) := by
  unfold inBounds; infer_instance

/-! ### Field generation (model.py lines 18-42) -/

/-- generate_temperature_field: deterministic sum of three Gaussian bumps. -/
noncomputable def generate_temperature_field (width height : ℤ) (p : ℤ × ℤ) : ℝ :=
  let x : ℝ := (p.1 : ℝ)
  let y : ℝ := (p.2 : ℝ)
  let w : ℝ := (width : ℝ)
  let h : ℝ := (height : ℝ)
  TEMP_BASE_MAX * Real.exp (-((x - w / 2) ^ 2 + (y - h / 2) ^ 2) / (w * 7.5))
    + TEMP_SPOT_1 * Real.exp (-((x - w * 0.2) ^ 2 + (y - h * 0.8) ^ 2) / 70)
    + TEMP_SPOT_2 * Real.exp (-((x - w * 0.75) ^ 2 + (y - h * 0.25) ^ 2) / 60)

/-- One food patch contribution: a Gaussian of amplitude amp and spread
sigma added to every cell within squared distance < 30 of the centre. -/
noncomputable def food_patch (cx cy : ℤ) (amp sigma : ℝ) (p : ℤ × ℤ) : ℝ :=
  let d : ℝ := ((p.1 - cx : ℤ) : ℝ) ^ 2 + ((p.2 - cy : ℤ) : ℝ) ^ 2
  if d < 30 then amp * Real.exp (-d / (2 * sigma ^ 2)) else 0

/-- generate_food_field: n_patches random patches, each drawing a centre
(margin 5 from every edge), an amplitude and a spread from the
process-global numpy source. -/
noncomputable def generate_food_field (width height : ℤ) :
    ℕ → Rng → ((ℤ × ℤ) → ℝ) × Rng
  | 0, g => (fun _ => 0, g)
  | n + 1, g =>
    let c1 := np_randint 5 (width - 5) g
    let c2 := np_randint 5 (height - 5) c1.2
    let a1 := np_uniform FOOD_PATCH_AMOUNT_MIN FOOD_PATCH_AMOUNT_MAX c2.2
    let s1 := np_uniform 2.0 4.0 a1.2
    let rest := generate_food_field width height n s1.2
    (fun p => rest.1 p + food_patch c1.1 c2.1 a1.1 s1.1 p, rest.2)

/-- Spawning loop of DualDriveModel.__init__: each agent draws its initial
energy from the process-global numpy source (np.random.uniform in
AllostaticAgent.__init__) and its cell from the per-model seeded source
(self.random.randint). Returns the agents and both advanced sources. -/
noncomputable def spawn_agents (width height : ℤ) :
    ℕ → Rng → Rng → ℕ → List AgentState × Rng × Rng
  | 0, inst, g, _ => ([], inst, g)
  | n + 1, inst, g, id0 =>
    let e := np_uniform INIT_ENERGY_MIN INIT_ENERGY_MAX g
    let rx := py_randint 0 (width - 1) inst
    let ry := py_randint 0 (height - 1) rx.2
    let a : AgentState :=
      { id := id0, is_alive := true, T_int := 10.0, E_int := e.1,
        prev_total_error := none, valence_integrated := 0, valence_bound := 2.0,
        current_beta := BETA_BASE, visits := [], visit_cleanup_counter := 0,
        food_signal_timer := 0, pos := (rx.1, ry.1) }
    let rest := spawn_agents width height n ry.2 e.2 (id0 + 1)
    (a :: rest.1, rest.2.1, rest.2.2)

/-- DualDriveModel.__init__: build the fields, zero scent and shared
memory, spawn num_agents agents.  inst is the per-model seeded source
(self.random, a function of the constructor seed), g the process-global
numpy source. -/
noncomputable def initModel (width height : ℤ) (num_agents : ℕ)
    (inst g : Rng) : ModelState :=
  let fd := generate_food_field width height NUM_FOOD_PATCHES g
  let sp := spawn_agents width height num_agents inst fd.2 0
  { width := width, height := height,
    temperature := generate_temperature_field width height,
    food := fd.1,
    food_scent := fun _ => 0,
    shared_memory := fun _ => 0,
    agents := sp.1,
    dead_count := 0 }

/-! ### Agent physiology (agents.py lines 91-148) -/

/-- The eating rule: intake = min(FOOD_INTAKE, food_available,
space_in_stomach) with space_in_stomach = E_max - E_int, where E_int is the
post-metabolism energy E1 (agents.py lines 106-107). -/
def eat_intake (fa E1 : ℝ) : ℝ :=
  min FOOD_INTAKE (min fa (MAX_ENERGY - E1))

/-- AllostaticAgent.update_internal_state: thermal relaxation, metabolism,
eating (with food-signal broadcast), timer decrement, death check, and the
valence / precision update.  Returns the updated agent together with the
model whose food field it may have eaten from. -/
noncomputable def update_internal_state (m : ModelState) (a : AgentState) :
    AgentState × ModelState :=
  if a.is_alive then
    let p := a.pos
    let T1 := a.T_int + ETA * (m.temperature p - a.T_int)
    let E1 := a.E_int - METABOLISM
    let fa := m.food p
    let eats : Prop := fa > 0.1 ∧ E1 < MAX_ENERGY
    let intake := if eats then eat_intake fa E1 else 0
    let E2 := E1 + intake
    let food' := if eats then Function.update m.food p (fa - intake) else m.food
    let t1 := if eats ∧ intake > 1.0 then FOOD_SIGNAL_DURATION
              else a.food_signal_timer
    let t2 := if t1 > 0 then t1 - 1.0 else t1
    if E2 ≤ 0 then
      ({ a with
          T_int := T1
          E_int := 0
          is_alive := false
          current_beta := 0
          food_signal_timer := t2 },
       { m with food := food' })
    else
      let err_T := |T1 - IDEAL_TEMP|
      let err_E := max 0 (CRITICAL_ENERGY - E2)
      let total_error := WEIGHT_TEMP * err_T + WEIGHT_ENERGY * err_E
      let prev := a.prev_total_error.getD total_error
      let inst_valence := -(total_error - prev)
      let v := a.valence_integrated + MU_AFFECT * (inst_valence - a.valence_integrated)
      let beta := clip (BETA_BASE * Real.exp (SIGMA * v)) 0.5 BETA_MAX
      ({ a with
          T_int := T1
          E_int := E2
          food_signal_timer := t2
          prev_total_error := some total_error
          valence_integrated := v
          current_beta := beta
          valence_bound := max a.valence_bound |v| },
       { m with food := food' })
  else (a, m)

/-! ### Memory and scent (agents.py lines 150-176) -/

/-- Value of the sparse visit map at a cell (dict .get(pos, 0.0)). -/
def visitsGet (vs : List ((ℤ × ℤ) × ℝ)) (p : ℤ × ℤ) : ℝ :=
  (Option.map Prod.snd (vs.find? (fun kv => kv.1 = p))).getD 0

/-- Write a value into the sparse visit map (dict assignment). -/
def visitsSet (vs : List ((ℤ × ℤ) × ℝ)) (p : ℤ × ℤ) (x : ℝ) :
    List ((ℤ × ℤ) × ℝ) :=
  if vs.any (fun kv => kv.1 = p) then
    vs.map (fun kv => if kv.1 = p then (kv.1, x) else kv)
  else vs ++ [(p, x)]

/-- AllostaticAgent.manage_memory_and_scent: bump the private visit map and
the shared memory field at the current cell, decay the private map,
amortised cleanup every 50 steps, and deposit scent while the food signal
timer runs. -/
noncomputable def manage_memory_and_scent (m : ModelState) (a : AgentState) :
    AgentState × ModelState :=
  if a.is_alive then
    let p := a.pos
    let vs1 := visitsSet a.visits p (visitsGet a.visits p + 1.0)
    let m1 := { m with shared_memory := Function.update m.shared_memory p (m.shared_memory p + 1.0) }
    let vs2 := vs1.map (fun kv => (kv.1, kv.2 * MEMORY_DECAY))
    let cnt := a.visit_cleanup_counter + 1
    let vs3 := if cnt ≥ 50 then vs2.filter (fun kv => kv.2 ≥ 0.05) else vs2
    let cnt' := if cnt ≥ 50 then 0 else cnt
    let m2 := if a.food_signal_timer > 0 then
        { m1 with food_scent := Function.update m1.food_scent p (m1.food_scent p + (a.food_signal_timer / FOOD_SIGNAL_DURATION) * 2.0) }
      else m1
    ({ a with
        visits := vs3
        visit_cleanup_counter := cnt' }, m2)
  else (a, m)

/-! ### Action choice (agents.py lines 178-230) -/

def directions : List (ℤ × ℤ) :=
  [(-1, 0), (1, 0), (0, -1), (0, 1), (1, 1), (-1, 1), (1, -1), (-1, -1)]

/-- Bounds-legal candidate cells: the 8 neighbours plus stay, filtered by
the grid bounds check. -/
def candidateMoves (m : ModelState) (a : AgentState) : List (ℤ × ℤ) :=
  (directions ++ [(0, 0)]).filterMap (fun (d : ℤ × ℤ) =>
    let n := (a.pos.1 + d.1, a.pos.2 + d.2)
    if inBounds m.width m.height n then some n else none)

/-- One-step-lookahead food intake estimate used in the pragmatic value
(agents.py lines 199-201): note it takes min with the food there only, not
with the remaining stomach room. -/
noncomputable def intake_pred (m : ModelState) (a : AgentState) (n : ℤ × ℤ) : ℝ :=
  if m.food n > 0.1 ∧ a.E_int - METABOLISM < MAX_ENERGY then
    min FOOD_INTAKE (m.food n)
  else 0

/-- Lookahead intake as the SPEC words it: the actual eating rule
(min of cap, food there, and post-metabolism stomach room) evaluated
hypothetically.  Written from the spec for comparison with intake_pred. -/
noncomputable def specPredictedIntake (m : ModelState) (a : AgentState) (n : ℤ × ℤ) : ℝ :=
  if m.food n > 0.1 ∧ a.E_int - METABOLISM < MAX_ENERGY then
    eat_intake (m.food n) (a.E_int - METABOLISM)
  else 0

/-- Candidate score G = pragmatic + w_epistemic * epistemic + social. -/
noncomputable def candidateScore (m : ModelState) (a : AgentState) (n : ℤ × ℤ) : ℝ :=
  let T_pred := a.T_int + ETA * (m.temperature n - a.T_int)
  let err_T_pred := |T_pred - IDEAL_TEMP|
  let E_pred := a.E_int - METABOLISM + intake_pred m a n
  let err_E_pred := max 0 (CRITICAL_ENERGY - E_pred)
  let G_pragmatic := -(WEIGHT_TEMP * err_T_pred + WEIGHT_ENERGY * err_E_pred)
  let G_epistemic := 1.0 / (1.0 + EXPLORATION_FACTOR * m.shared_memory n)
  let G_social := if a.E_int < CRITICAL_ENERGY then
      SOCIAL_WEIGHT * m.food_scent n
    else 0
  G_pragmatic + WEIGHT_EPISTEMIC * G_epistemic + G_social

/-- np.max of a list of scores (the candidate list is never empty). -/
def listMax : List ℝ → ℝ
  | [] => 0
  | x :: xs => xs.foldl max x

/-- Numerically-stabilised softmax: shift by the max, exponentiate scaled
by beta, normalise. -/
noncomputable def softmaxProbs (beta : ℝ) (ss : List ℝ) : List ℝ :=
  let M := listMax ss
  let es := ss.map (fun s => Real.exp (beta * (s - M)))
  es.map (fun e => e / es.sum)

/-- Inverse-CDF sampling: the index np.random.choice picks when the
uniform draw is u. -/
noncomputable def pick : List ℝ → ℝ → ℕ
  | [], _ => 0
  | q :: qs, u => if u < q then 0 else pick qs (u - q) + 1

/-- AllostaticAgent.choose_action: score each bounds-legal candidate,
softmax with the agent's current precision as inverse temperature, sample
one candidate (u is the uniform draw of np.random.choice). -/
noncomputable def choose_action (m : ModelState) (a : AgentState) (u : ℝ) :
    ℤ × ℤ :=
  if a.is_alive then
    let moves := candidateMoves m a
    let probs := softmaxProbs a.current_beta (moves.map (candidateScore m a))
    moves.getD (pick probs u) a.pos
  else a.pos

/-! ### The tick (agents.py step, model.py step) -/

/-- AllostaticAgent.step: physiology, then (if still alive) move and
memory/scent bookkeeping. -/
noncomputable def agentStep (m : ModelState) (a : AgentState) (u : ℝ) :
    AgentState × ModelState :=
  if a.is_alive then
    let r1 := update_internal_state m a
    if r1.1.is_alive then
      let a2 := { r1.1 with pos := choose_action r1.2 r1.1 u }
      manage_memory_and_scent r1.2 a2
    else r1
  else (a, m)

/-- The agent sweep of DualDriveModel.step: step each agent in list order
(the shuffled order), threading the shared fields; returns the agents kept
in the active set, the newly-dead agents, and the post-sweep fields. -/
noncomputable def sweep (us : ℕ → ℝ) :
    ℕ → ModelState → List AgentState →
    List AgentState × List AgentState × ModelState
  | _, m, [] => ([], [], m)
  | i, m, a :: rest =>
    let r := agentStep m a (us i)
    let s := sweep us (i + 1) r.2 rest
    if a.is_alive ∧ ¬r.1.is_alive then (s.1, r.1 :: s.2.1, s.2.2)
    else (r.1 :: s.1, s.2.1, s.2.2)

/-- The newly-dead agents of one tick. -/
noncomputable def stepDead (m : ModelState) (us : ℕ → ℝ) : List AgentState :=
  (sweep us 0 m m.agents).2.1

/-- The fields state right after the agent sweep, before decay. -/
noncomputable def sweepFields (m : ModelState) (us : ℕ → ℝ) : ModelState :=
  (sweep us 0 m m.agents).2.2

/-- End-of-tick decay: multiply by the factor, hard-set to zero below the
floor (np.multiply followed by np.putmask(field < 0.05, 0)). -/
noncomputable def decayField (factor floor : ℝ) (f : ℤ × ℤ → ℝ) : ℤ × ℤ → ℝ :=
  fun p => if f p * factor < floor then 0 else f p * factor

/-- DualDriveModel.step: sweep the (shuffled) agents, remove the
newly-dead from the active set and count them, then decay scent and shared
memory.  us gives the softmax sampling draw of the i-th agent stepped. -/
noncomputable def modelStep (m : ModelState) (us : ℕ → ℝ) : ModelState :=
  let r := sweep us 0 m m.agents
  { r.2.2 with
    agents := r.1,
    dead_count := r.2.2.dead_count + r.2.1.length,
    food_scent := decayField SCENT_DECAY 0.05 r.2.2.food_scent,
    shared_memory := decayField MEMORY_DECAY 0.05 r.2.2.shared_memory }

/-- Iterated ticks from a state; uss k is the draw oracle of tick k+1. -/
noncomputable def runModel (m0 : ModelState) (uss : ℕ → ℕ → ℝ) : ℕ → ModelState
  | 0 => m0
  | k + 1 => modelStep (runModel m0 uss k) (uss k)

/-- DualDriveModel.drop_food: bounds-checked additive deposit into the
food field; silent no-op out of bounds. -/
def drop_food (m : ModelState) (x y : ℤ) (amount : ℝ) : ModelState :=
  if 0 ≤ x ∧ x < m.width ∧ 0 ≤ y ∧ y < m.height then
    { m with food := Function.update m.food (x, y) (m.food (x, y) + amount) }
  else m

/-! ### Concrete states for witnesses and counterexamples -/

/-- A small 2 by 2 world with empty fields and no agents. -/
noncomputable def baseModel : ModelState :=
  { width := 2, height := 2, temperature := fun _ => 10,
    food := fun _ => 0, food_scent := fun _ => 0,
    shared_memory := fun _ => 0, agents := [], dead_count := 0 }

/-! ### Claims about drop_food -/

/-- C5: an in-bounds drop_food(x, y, amount) increases food(x, y) by
exactly amount and leaves every other food cell, the other three fields,
the agents and the counters unchanged; an out-of-bounds call changes
nothing at all. -/
theorem drop_food_frame (m : ModelState) (x y : ℤ) (amount : ℝ) :
    (0 ≤ x ∧ x < m.width ∧ 0 ≤ y ∧ y < m.height →
      (drop_food m x y amount).food (x, y) = m.food (x, y) + amount ∧
      (∀ p : ℤ × ℤ, p ≠ (x, y) → (drop_food m x y amount).food p = m.food p) ∧
      (drop_food m x y amount).temperature = m.temperature ∧
      (drop_food m x y amount).food_scent = m.food_scent ∧
      (drop_food m x y amount).shared_memory = m.shared_memory ∧
      (drop_food m x y amount).agents = m.agents ∧
      (drop_food m x y amount).dead_count = m.dead_count ∧
      (drop_food m x y amount).width = m.width ∧
      (drop_food m x y amount).height = m.height) ∧
    (¬(0 ≤ x ∧ x < m.width ∧ 0 ≤ y ∧ y < m.height) →
      drop_food m x y amount = m) := by
  constructor
  · intro hin
    simp only [drop_food, if_pos hin, and_true, true_and]
    exact ⟨Function.update_same _ _ _, fun p hp => Function.update_noteq hp _ _⟩
  · intro hout
    simp only [drop_food, if_neg hout]

/-- Witness for C5 at a concrete world: an in-bounds deposit adds exactly
the amount, and an out-of-bounds deposit is the identity. -/
theorem drop_food_frame_witness :
    (drop_food baseModel 0 0 1).food (0, 0) = baseModel.food (0, 0) + 1 ∧
    drop_food baseModel 5 0 1 = baseModel := by
  constructor
  · exact ((drop_food_frame baseModel 0 0 1).1
      (by norm_num [baseModel])).1
  · exact (drop_food_frame baseModel 5 0 1).2
      (by norm_num [baseModel])

/-- C9: drop_food never checks the sign of its amount: in bounds it adds
the amount unconditionally, so a negative amount strictly decreases the
cell and can drive it negative (shown at a concrete input); food
non-negativity survives deposits only under the precondition that the
amount is non-negative. -/
theorem drop_food_no_sign_check :
    (∀ (m : ModelState) (x y : ℤ) (amount : ℝ),
        0 ≤ x → x < m.width → 0 ≤ y → y < m.height →
        (drop_food m x y amount).food (x, y) = m.food (x, y) + amount) ∧
    ((drop_food baseModel 0 0 (-1)).food (0, 0) < baseModel.food (0, 0) ∧
      (drop_food baseModel 0 0 (-1)).food (0, 0) < 0) ∧
    (∀ (m : ModelState) (x y : ℤ) (amount : ℝ), 0 ≤ amount →
        (∀ p, 0 ≤ m.food p) → ∀ p, 0 ≤ (drop_food m x y amount).food p) := by
  have hadd : ∀ (m : ModelState) (x y : ℤ) (amount : ℝ),
      0 ≤ x → x < m.width → 0 ≤ y → y < m.height →
      (drop_food m x y amount).food (x, y) = m.food (x, y) + amount := by
    intro m x y amount h1 h2 h3 h4
    simp only [drop_food, if_pos (And.intro h1 (And.intro h2 (And.intro h3 h4)))]
    exact Function.update_same _ _ _
  refine ⟨hadd, ⟨?_, ?_⟩, ?_⟩
  · rw [hadd baseModel 0 0 (-1) (by norm_num) (by norm_num [baseModel])
      (by norm_num) (by norm_num [baseModel])]
    norm_num
  · rw [hadd baseModel 0 0 (-1) (by norm_num) (by norm_num [baseModel])
      (by norm_num) (by norm_num [baseModel])]
    norm_num [baseModel]
  · intro m x y amount hamt hnn p
    by_cases hin : 0 ≤ x ∧ x < m.width ∧ 0 ≤ y ∧ y < m.height
    · simp only [drop_food, if_pos hin]
      by_cases hp : p = (x, y)
      · rw [hp, Function.update_same]
        exact add_nonneg (hnn (x, y)) hamt
      · rw [Function.update_noteq hp]
        exact hnn p
    · simp only [drop_food, if_neg hin]
      exact hnn p

/-- Witness for C9 at concrete inputs: the unconditional addition at an
in-bounds cell, and preservation of non-negativity for a non-negative
amount. -/
theorem drop_food_no_sign_check_witness :
    (drop_food baseModel 0 1 7).food (0, 1) = baseModel.food (0, 1) + 7 ∧
    (0 : ℝ) ≤ (drop_food baseModel 0 0 2).food (1, 1) := by
  constructor
  · exact drop_food_no_sign_check.1 baseModel 0 1 7 (by norm_num)
      (by norm_num [baseModel]) (by norm_num) (by norm_num [baseModel])
  · exact drop_food_no_sign_check.2.2 baseModel 0 0 2 (by norm_num)
      (fun p => le_refl 0) (1, 1)

/-! ### Scenario B (C1) -/

/-- Scenario B world: food 20 everywhere, comfortable temperature. -/
noncomputable def scenarioBModel : ModelState :=
  { width := 40, height := 40, temperature := fun _ => 25,
    food := fun _ => 20, food_scent := fun _ => 0,
    shared_memory := fun _ => 0, agents := [], dead_count := 0 }

/-- Scenario B agent: alive at (0,0) with energy max_energy - 5. -/
noncomputable def scenarioBAgent : AgentState :=
  { id := 0, is_alive := true, T_int := 25, E_int := MAX_ENERGY - 5,
    prev_total_error := none, valence_integrated := 0, valence_bound := 2,
    current_beta := BETA_BASE, visits := [], visit_cleanup_counter := 0,
    food_signal_timer := 0, pos := (0, 0) }

/-- Evaluation of one update_internal_state tick on Scenario B: metabolism
runs before eating, so the intake is min(10, 20, 5 + 0.15) = 5.15, energy
fills to max, the cell keeps 14.85, and the signal timer is reset to the
full duration and then decremented to 14. -/
lemma scenarioB_eval :
    eat_intake (scenarioBModel.food (0, 0)) (scenarioBAgent.E_int - METABOLISM)
      = 5.15 ∧
    (update_internal_state scenarioBModel scenarioBAgent).1.E_int = MAX_ENERGY ∧
    (update_internal_state scenarioBModel scenarioBAgent).2.food (0, 0) = 14.85 ∧
    (update_internal_state scenarioBModel scenarioBAgent).1.food_signal_timer
      = FOOD_SIGNAL_DURATION - 1 := by
  norm_num [update_internal_state, scenarioBModel, scenarioBAgent, eat_intake,
    MAX_ENERGY, METABOLISM, FOOD_INTAKE, FOOD_SIGNAL_DURATION, min_def,
    Function.update]

/-- C1 counterexample: on Scenario B as stated (energy = max_energy - 5 at
the start of the tick) the computed intake is not 5 and the cell is not
left with food 15, because the metabolism cost is deducted before eating. -/
theorem scenarioB_claim_false :
    eat_intake (scenarioBModel.food (0, 0)) (scenarioBAgent.E_int - METABOLISM)
      ≠ 5 ∧
    (update_internal_state scenarioBModel scenarioBAgent).2.food (0, 0) ≠ 15 := by
  constructor
  · rw [scenarioB_eval.1]; norm_num
  · rw [scenarioB_eval.2.2.1]; norm_num

/-- C1 amended: on Scenario B the tick first deducts the metabolism cost
0.15, so the computed intake is min(10, 20, 5.15) = 5.15; after the tick
energy equals max_energy, the cell holds food 14.85, and the signal timer
was reset to its full duration during eating and then decremented once,
ending the tick at duration - 1 = 14. -/
theorem scenarioB_amended :
    eat_intake (scenarioBModel.food (0, 0)) (scenarioBAgent.E_int - METABOLISM)
      = 5.15 ∧
    (update_internal_state scenarioBModel scenarioBAgent).1.E_int = MAX_ENERGY ∧
    (update_internal_state scenarioBModel scenarioBAgent).2.food (0, 0) = 14.85 ∧
    (update_internal_state scenarioBModel scenarioBAgent).1.food_signal_timer
      = FOOD_SIGNAL_DURATION - 1 :=
  scenarioB_eval

/-! ### The lookahead intake estimate (C2) -/

/-- C2 counterexample: at a cell with food 20 and an agent with energy
max_energy - 5 the eating preconditions hold, yet the lookahead intake of
the pragmatic value is 10 while the actual eating rule evaluated
hypothetically gives 5.15 -- the code omits the stomach-room term. -/
theorem intake_pred_claim_false :
    scenarioBModel.food (0, 0) > 0.1 ∧
    scenarioBAgent.E_int - METABOLISM < MAX_ENERGY ∧
    intake_pred scenarioBModel scenarioBAgent (0, 0) = 10 ∧
    specPredictedIntake scenarioBModel scenarioBAgent (0, 0) = 5.15 ∧
    intake_pred scenarioBModel scenarioBAgent (0, 0) ≠
      specPredictedIntake scenarioBModel scenarioBAgent (0, 0) := by
  norm_num [intake_pred, specPredictedIntake, eat_intake, scenarioBModel,
    scenarioBAgent, MAX_ENERGY, METABOLISM, FOOD_INTAKE, min_def]

/-- C2 amended: whenever the eating preconditions hold, the lookahead
intake used in the pragmatic value equals min(intake_cap, food at the
candidate) only -- unlike actual eating, it is not capped by the room left
in the stomach. -/
theorem intake_pred_amended (m : ModelState) (a : AgentState) (n : ℤ × ℤ)
    (h1 : m.food n > 0.1) (h2 : a.E_int - METABOLISM < MAX_ENERGY) :
    intake_pred m a n = min FOOD_INTAKE (m.food n) := by
  simp only [intake_pred, if_pos (And.intro h1 h2)]

/-- Witness for the amended C2 at the concrete Scenario B inputs. -/
theorem intake_pred_amended_witness :
    intake_pred scenarioBModel scenarioBAgent (0, 0)
      = min FOOD_INTAKE (scenarioBModel.food (0, 0)) :=
  intake_pred_amended scenarioBModel scenarioBAgent (0, 0)
    (by norm_num [scenarioBModel])
    (by norm_num [scenarioBAgent, MAX_ENERGY, METABOLISM])

/-! ### Effect lemmas for the tick -/

/-- update_internal_state touches no model component except the food
field. -/
lemma uis_model (m : ModelState) (a : AgentState) :
    (update_internal_state m a).2.width = m.width ∧
    (update_internal_state m a).2.height = m.height ∧
    (update_internal_state m a).2.temperature = m.temperature ∧
    (update_internal_state m a).2.food_scent = m.food_scent ∧
    (update_internal_state m a).2.shared_memory = m.shared_memory ∧
    (update_internal_state m a).2.agents = m.agents ∧
    (update_internal_state m a).2.dead_count = m.dead_count := by
  simp only [update_internal_state]
  split_ifs <;> simp

/-- The food field after update_internal_state, explicitly. -/
lemma uis_food (m : ModelState) (a : AgentState) :
    (update_internal_state m a).2.food =
      if a.is_alive = true ∧
          (m.food a.pos > 0.1 ∧ a.E_int - METABOLISM < MAX_ENERGY) then
        Function.update m.food a.pos
          (m.food a.pos - eat_intake (m.food a.pos) (a.E_int - METABOLISM))
      else m.food := by
  simp only [update_internal_state]
  by_cases ha : a.is_alive
  · by_cases he : m.food a.pos > 0.1 ∧ a.E_int - METABOLISM < MAX_ENERGY
    · simp only [if_pos ha, if_pos he, ha, he, and_true, true_and, if_true]
      split_ifs <;> simp
    · simp only [if_pos ha, if_neg he, ha, he, and_false, if_false]
      split_ifs <;> simp
  · simp only [if_neg ha]
    simp [ha]

/-- A cell whose food does not exceed the eating epsilon is never eaten
from. -/
lemma uis_food_low (m : ModelState) (a : AgentState) (c : ℤ × ℤ)
    (h : m.food c ≤ 0.1) :
    (update_internal_state m a).2.food c = m.food c := by
  rw [uis_food]
  split_ifs with hif
  · by_cases hc : c = a.pos
    · exact absurd (hc ▸ hif.2.1) (not_lt.mpr h)
    · exact Function.update_noteq hc _ _
  · rfl

/-- Eating keeps the food field non-negative: the intake is capped by
availability. -/
lemma uis_food_nonneg (m : ModelState) (a : AgentState)
    (h : ∀ p, 0 ≤ m.food p) : ∀ p, 0 ≤ (update_internal_state m a).2.food p := by
  intro p
  rw [uis_food]
  split_ifs with hif
  · by_cases hp : p = a.pos
    · rw [hp, Function.update_same]
      have hle : eat_intake (m.food a.pos) (a.E_int - METABOLISM) ≤ m.food a.pos :=
        le_trans (min_le_right _ _) (min_le_left _ _)
      linarith
    · rw [Function.update_noteq hp]
      exact h p
  · exact h p

/-- manage_memory_and_scent touches neither food nor temperature nor the
grid bookkeeping, and only ever adds to scent and shared memory. -/
lemma mms_model (m : ModelState) (a : AgentState) :
    (manage_memory_and_scent m a).2.width = m.width ∧
    (manage_memory_and_scent m a).2.height = m.height ∧
    (manage_memory_and_scent m a).2.temperature = m.temperature ∧
    (manage_memory_and_scent m a).2.food = m.food ∧
    (manage_memory_and_scent m a).2.agents = m.agents ∧
    (manage_memory_and_scent m a).2.dead_count = m.dead_count ∧
    (∀ p, m.food_scent p ≤ (manage_memory_and_scent m a).2.food_scent p) ∧
    (∀ p, m.shared_memory p ≤ (manage_memory_and_scent m a).2.shared_memory p) := by
  have hscent : ∀ p, m.food_scent p ≤ (manage_memory_and_scent m a).2.food_scent p := by
    intro p
    simp only [manage_memory_and_scent]
    by_cases ha : a.is_alive
    · simp only [if_pos ha]
      by_cases ht : a.food_signal_timer > 0
      · simp only [if_pos ht]
        by_cases hp : p = a.pos
        · rw [hp, Function.update_same]
          have hx : 0 < (a.food_signal_timer / FOOD_SIGNAL_DURATION) * 2.0 := by
            have hd : (0 : ℝ) < FOOD_SIGNAL_DURATION := by
              norm_num [FOOD_SIGNAL_DURATION]
            positivity
          linarith
        · rw [Function.update_noteq hp]
      · simp only [if_neg ht]
        exact le_rfl
    · simp only [if_neg ha]
      exact le_rfl
  have hshared : ∀ p, m.shared_memory p ≤ (manage_memory_and_scent m a).2.shared_memory p := by
    intro p
    simp only [manage_memory_and_scent]
    by_cases ha : a.is_alive
    · simp only [if_pos ha]
      have hbase : m.shared_memory p ≤
          Function.update m.shared_memory a.pos (m.shared_memory a.pos + 1.0) p := by
        by_cases hp : p = a.pos
        · rw [hp, Function.update_same]; linarith
        · rw [Function.update_noteq hp]
      by_cases ht : a.food_signal_timer > 0
      · simpa only [if_pos ht] using hbase
      · simpa only [if_neg ht] using hbase
    · simp only [if_neg ha]
      exact le_rfl
  refine ⟨?_, ?_, ?_, ?_, ?_, ?_, hscent, hshared⟩ <;>
    · simp only [manage_memory_and_scent]
      split_ifs <;> rfl

/-- One full agent step keeps the grid bookkeeping and the temperature
field, and can only add to scent and shared memory. -/
lemma agentStep_model (m : ModelState) (a : AgentState) (u : ℝ) :
    (agentStep m a u).2.width = m.width ∧
    (agentStep m a u).2.height = m.height ∧
    (agentStep m a u).2.temperature = m.temperature ∧
    (agentStep m a u).2.agents = m.agents ∧
    (agentStep m a u).2.dead_count = m.dead_count ∧
    (∀ p, m.food_scent p ≤ (agentStep m a u).2.food_scent p) ∧
    (∀ p, m.shared_memory p ≤ (agentStep m a u).2.shared_memory p) := by
  simp only [agentStep]
  by_cases ha : a.is_alive
  · simp only [if_pos ha]
    by_cases h1 : (update_internal_state m a).1.is_alive
    · simp only [if_pos h1]
      obtain ⟨uw, uh, ut, us', ush, uag, ud⟩ := uis_model m a
      obtain ⟨mw, mh, mt, mf, mag, md, msc, msh⟩ :=
        mms_model (update_internal_state m a).2
          { (update_internal_state m a).1 with
              pos := choose_action (update_internal_state m a).2
                (update_internal_state m a).1 u }
      refine ⟨mw.trans uw, mh.trans uh, mt.trans ut, mag.trans uag, md.trans ud,
        ?_, ?_⟩
      · intro p
        calc m.food_scent p = (update_internal_state m a).2.food_scent p := by
              rw [us']
          _ ≤ _ := msc p
      · intro p
        calc m.shared_memory p = (update_internal_state m a).2.shared_memory p := by
              rw [ush]
          _ ≤ _ := msh p
    · simp only [if_neg h1]
      obtain ⟨uw, uh, ut, us', ush, uag, ud⟩ := uis_model m a
      exact ⟨uw, uh, ut, uag, ud, fun p => le_of_eq (congrFun us' p).symm,
        fun p => le_of_eq (congrFun ush p).symm⟩
  · simp only [if_neg ha]
    exact ⟨trivial, trivial, trivial, trivial, trivial,
      fun p => le_rfl, fun p => le_rfl⟩

/-- A full agent step never eats from a cell at or below the epsilon. -/
lemma agentStep_food_low (m : ModelState) (a : AgentState) (u : ℝ)
    (c : ℤ × ℤ) (h : m.food c ≤ 0.1) :
    (agentStep m a u).2.food c = m.food c := by
  simp only [agentStep]
  by_cases ha : a.is_alive
  · simp only [if_pos ha]
    by_cases h1 : (update_internal_state m a).1.is_alive
    · simp only [if_pos h1]
      obtain ⟨_, _, _, mf, _, _, _, _⟩ :=
        mms_model (update_internal_state m a).2
          { (update_internal_state m a).1 with
              pos := choose_action (update_internal_state m a).2
                (update_internal_state m a).1 u }
      rw [congrFun mf c, uis_food_low m a c h]
    · simp only [if_neg h1]
      exact uis_food_low m a c h
  · simp only [if_neg ha]

/-- A full agent step keeps the food field non-negative. -/
lemma agentStep_food_nonneg (m : ModelState) (a : AgentState) (u : ℝ)
    (h : ∀ p, 0 ≤ m.food p) : ∀ p, 0 ≤ (agentStep m a u).2.food p := by
  intro p
  simp only [agentStep]
  by_cases ha : a.is_alive
  · simp only [if_pos ha]
    by_cases h1 : (update_internal_state m a).1.is_alive
    · simp only [if_pos h1]
      obtain ⟨_, _, _, mf, _, _, _, _⟩ :=
        mms_model (update_internal_state m a).2
          { (update_internal_state m a).1 with
              pos := choose_action (update_internal_state m a).2
                (update_internal_state m a).1 u }
      rw [congrFun mf p]
      exact uis_food_nonneg m a h p
    · simp only [if_neg h1]
      exact uis_food_nonneg m a h p
  · simp only [if_neg ha]
    exact h p

/-- The fields-state after sweeping a cons is the fields-state of the tail
sweep started from the stepped head. -/
lemma sweep_cons_fields (us : ℕ → ℝ) (i : ℕ) (m : ModelState)
    (a : AgentState) (rest : List AgentState) :
    (sweep us i m (a :: rest)).2.2 =
      (sweep us (i + 1) (agentStep m a (us i)).2 rest).2.2 := by
  simp only [sweep]
  split_ifs <;> rfl

/-- The whole agent sweep never eats from a cell at or below the
epsilon. -/
lemma sweep_food_low (us : ℕ → ℝ) (c : ℤ × ℤ) :
    ∀ (l : List AgentState) (i : ℕ) (m : ModelState), m.food c ≤ 0.1 →
      (sweep us i m l).2.2.food c = m.food c := by
  intro l
  induction l with
  | nil => intro i m _; rfl
  | cons a rest ih =>
    intro i m h
    rw [sweep_cons_fields]
    have hstep := agentStep_food_low m a (us i) c h
    rw [ih (i + 1) (agentStep m a (us i)).2 (by rw [hstep]; exact h), hstep]

/-- The food field of a tick is the post-sweep food field (the decay
phase touches only scent and shared memory). -/
lemma modelStep_food (m : ModelState) (us : ℕ → ℝ) :
    (modelStep m us).food = (sweep us 0 m m.agents).2.2.food := rfl

/-- C10: the tick never decays food and the eating guard needs food
strictly above 0.1, so a cell whose food lies in (0, 0.1] keeps exactly
that food value over every number of ticks, for every sampling oracle,
as long as no external deposit touches it. -/
theorem low_food_frozen (m : ModelState) (c : ℤ × ℤ) (uss : ℕ → ℕ → ℝ)
    (h0 : 0 < m.food c) (h1 : m.food c ≤ 0.1) :
    ∀ k, (runModel m uss k).food c = m.food c := by
  intro k
  induction k with
  | zero => rfl
  | succ k ih =>
    show (modelStep (runModel m uss k) (uss k)).food c = m.food c
    rw [congrFun (modelStep_food (runModel m uss k) (uss k)) c,
      sweep_food_low (uss k) c (runModel m uss k).agents 0 (runModel m uss k)
        (by rw [ih]; exact h1), ih]

/-- A 2 by 2 world whose food is 0.05 everywhere: in the eating dead
zone. -/
noncomputable def lowFoodModel : ModelState :=
  { baseModel with food := fun _ => 0.05 }

/-- Witness for C10: three ticks leave the 0.05 food cell untouched. -/
theorem low_food_frozen_witness :
    (runModel lowFoodModel (fun _ _ => 0) 3).food (0, 0)
      = lowFoodModel.food (0, 0) :=
  low_food_frozen lowFoodModel (0, 0) (fun _ _ => 0)
    (by norm_num [lowFoodModel, baseModel])
    (by norm_num [lowFoodModel, baseModel]) 3

/-- The whole sweep keeps the grid bookkeeping and the temperature field,
and can only add to scent and shared memory. -/
lemma sweep_model (us : ℕ → ℝ) :
    ∀ (l : List AgentState) (i : ℕ) (m : ModelState),
    (sweep us i m l).2.2.width = m.width ∧
    (sweep us i m l).2.2.height = m.height ∧
    (sweep us i m l).2.2.temperature = m.temperature ∧
    (sweep us i m l).2.2.agents = m.agents ∧
    (sweep us i m l).2.2.dead_count = m.dead_count ∧
    (∀ p, m.food_scent p ≤ (sweep us i m l).2.2.food_scent p) ∧
    (∀ p, m.shared_memory p ≤ (sweep us i m l).2.2.shared_memory p) := by
  intro l
  induction l with
  | nil =>
    intro i m
    exact ⟨rfl, rfl, rfl, rfl, rfl, fun p => le_rfl, fun p => le_rfl⟩
  | cons a rest ih =>
    intro i m
    obtain ⟨aw, ah, at', aag, ad, asc, ash⟩ := agentStep_model m a (us i)
    obtain ⟨iw, ih', it, iag, id', isc, ish⟩ :=
      ih (i + 1) (agentStep m a (us i)).2
    rw [sweep_cons_fields]
    exact ⟨iw.trans aw, ih'.trans ah, it.trans at', iag.trans aag, id'.trans ad,
      fun p => le_trans (asc p) (isc p), fun p => le_trans (ash p) (ish p)⟩

/-- The whole sweep keeps the food field non-negative. -/
lemma sweep_food_nonneg (us : ℕ → ℝ) :
    ∀ (l : List AgentState) (i : ℕ) (m : ModelState), (∀ p, 0 ≤ m.food p) →
      ∀ p, 0 ≤ (sweep us i m l).2.2.food p := by
  intro l
  induction l with
  | nil => intro i m h; exact h
  | cons a rest ih =>
    intro i m h
    rw [sweep_cons_fields]
    exact ih (i + 1) (agentStep m a (us i)).2 (agentStep_food_nonneg m a (us i) h)

/-- Decay keeps a non-negative field non-negative. -/
lemma decayField_nonneg (factor floor : ℝ) (hfa : 0 ≤ factor)
    (f : ℤ × ℤ → ℝ) (h : ∀ p, 0 ≤ f p) : ∀ p, 0 ≤ decayField factor floor f p := by
  intro p
  simp only [decayField]
  split_ifs
  · exact le_rfl
  · exact mul_nonneg (h p) hfa

/-- A positive value either hits the hard zero floor or strictly
decreases under a decay factor below one. -/
lemma decayField_strict (factor floor : ℝ) (hf : factor < 1)
    (f : ℤ × ℤ → ℝ) (p : ℤ × ℤ) (hp : 0 < f p) :
    decayField factor floor f p = 0 ∨ decayField factor floor f p < f p := by
  simp only [decayField]
  split_ifs
  · exact Or.inl rfl
  · exact Or.inr (mul_lt_of_lt_one_right hp hf)

/-- All four fields are non-negative. -/
def FieldsNonneg (m : ModelState) : Prop :=
  ∀ p, 0 ≤ m.temperature p ∧ 0 ≤ m.food p ∧ 0 ≤ m.food_scent p ∧
    0 ≤ m.shared_memory p

/-- C8: a tick keeps every field value non-negative, and the end-of-tick
decay multiplies scent and shared memory by factors below one with a hard
zero floor, so every positive post-sweep scent or shared-memory value is
either set to exactly zero or strictly decreased by the decay. -/
theorem tick_fields_nonneg_decay (m : ModelState) (us : ℕ → ℝ)
    (h : FieldsNonneg m) :
    FieldsNonneg (modelStep m us) ∧
    (∀ p, 0 < (sweepFields m us).food_scent p →
      (modelStep m us).food_scent p = 0 ∨
        (modelStep m us).food_scent p < (sweepFields m us).food_scent p) ∧
    (∀ p, 0 < (sweepFields m us).shared_memory p →
      (modelStep m us).shared_memory p = 0 ∨
        (modelStep m us).shared_memory p < (sweepFields m us).shared_memory p) := by
  obtain ⟨_, _, ht, _, _, hsc, hsh⟩ := sweep_model us m.agents 0 m
  refine ⟨?_, ?_, ?_⟩
  · intro p
    refine ⟨?_, ?_, ?_, ?_⟩
    · show 0 ≤ (sweep us 0 m m.agents).2.2.temperature p
      rw [congrFun ht p]
      exact (h p).1
    · exact sweep_food_nonneg us m.agents 0 m (fun q => (h q).2.1) p
    · exact decayField_nonneg SCENT_DECAY 0.05 (by norm_num [SCENT_DECAY])
        (sweep us 0 m m.agents).2.2.food_scent
        (fun q => le_trans (h q).2.2.1 (hsc q)) p
    · exact decayField_nonneg MEMORY_DECAY 0.05 (by norm_num [MEMORY_DECAY])
        (sweep us 0 m m.agents).2.2.shared_memory
        (fun q => le_trans (h q).2.2.2 (hsh q)) p
  · intro p hp
    exact decayField_strict SCENT_DECAY 0.05 (by norm_num [SCENT_DECAY])
      (sweep us 0 m m.agents).2.2.food_scent p hp
  · intro p hp
    exact decayField_strict MEMORY_DECAY 0.05 (by norm_num [MEMORY_DECAY])
      (sweep us 0 m m.agents).2.2.shared_memory p hp

/-- A 2 by 2 world with scent 1 everywhere and no agents. -/
noncomputable def scentModel : ModelState :=
  { baseModel with food_scent := fun _ => 1 }

/-- Witness for C8 at a concrete world: the tick keeps all fields
non-negative and the positive scent value either zeroes or strictly
decreases. -/
theorem tick_fields_nonneg_decay_witness :
    FieldsNonneg (modelStep scentModel (fun _ => 0)) ∧
    ((modelStep scentModel (fun _ => 0)).food_scent (0, 0) = 0 ∨
      (modelStep scentModel (fun _ => 0)).food_scent (0, 0)
        < (sweepFields scentModel (fun _ => 0)).food_scent (0, 0)) := by
  have h := tick_fields_nonneg_decay scentModel (fun _ => 0)
    (fun p => by norm_num [scentModel, baseModel])
  exact ⟨h.1, h.2.1 (0, 0) (by norm_num [sweepFields, sweep, scentModel, baseModel])⟩

/-! ### The per-agent invariant (C7) -/

/-- The per-agent invariant of the spec: a live agent has energy in
[0, max_energy] and precision in [0.5, precision_max]. -/
def AgentInv (a : AgentState) : Prop :=
  a.is_alive = true →
    0 ≤ a.E_int ∧ a.E_int ≤ MAX_ENERGY ∧
    0.5 ≤ a.current_beta ∧ a.current_beta ≤ BETA_MAX

/-- The eating intake never exceeds the room left in the stomach. -/
lemma eat_intake_le_room (fa E1 : ℝ) : eat_intake fa E1 ≤ MAX_ENERGY - E1 :=
  le_trans (min_le_right _ _) (min_le_right _ _)

/-- A live agent's physiology update keeps energy and precision inside
their ranges while it survives, and clamps energy to 0 and precision to 0
when it dies. -/
lemma uis_energy_beta (m : ModelState) (a : AgentState) (ha : a.is_alive = true)
    (h1 : a.E_int ≤ MAX_ENERGY) :
    ((update_internal_state m a).1.is_alive = true →
      0 < (update_internal_state m a).1.E_int ∧
      (update_internal_state m a).1.E_int ≤ MAX_ENERGY ∧
      0.5 ≤ (update_internal_state m a).1.current_beta ∧
      (update_internal_state m a).1.current_beta ≤ BETA_MAX) ∧
    ((update_internal_state m a).1.is_alive = false →
      (update_internal_state m a).1.E_int = 0 ∧
      (update_internal_state m a).1.current_beta = 0) := by
  have hmet : (0 : ℝ) < METABOLISM := by norm_num [METABOLISM]
  have hroom := eat_intake_le_room (m.food a.pos) (a.E_int - METABOLISM)
  have hbm : (0.5 : ℝ) ≤ BETA_MAX := by norm_num [BETA_MAX]
  simp only [update_internal_state, if_pos ha]
  split_ifs
  all_goals constructor
  all_goals intro hcase
  all_goals simp_all
  all_goals refine ⟨?_, le_min (le_max_right _ _) hbm, min_le_right _ _⟩
  all_goals linarith

/-- The memory/scent bookkeeping never touches liveness, energy,
precision or the agent id. -/
lemma mms_agent (m : ModelState) (a : AgentState) :
    (manage_memory_and_scent m a).1.is_alive = a.is_alive ∧
    (manage_memory_and_scent m a).1.E_int = a.E_int ∧
    (manage_memory_and_scent m a).1.current_beta = a.current_beta ∧
    (manage_memory_and_scent m a).1.id = a.id := by
  simp only [manage_memory_and_scent]
  split_ifs <;> exact ⟨rfl, rfl, rfl, rfl⟩

/-- One full agent step preserves the per-agent invariant, and an agent
that dies during its step ends it with energy 0 and precision 0. -/
lemma agentStep_inv (m : ModelState) (a : AgentState) (u : ℝ)
    (h : AgentInv a) :
    AgentInv (agentStep m a u).1 ∧
    (a.is_alive = true → (agentStep m a u).1.is_alive = false →
      (agentStep m a u).1.E_int = 0 ∧ (agentStep m a u).1.current_beta = 0) := by
  by_cases ha : a.is_alive
  · have hbounds := uis_energy_beta m a ha (h ha).2.1
    simp only [agentStep, if_pos ha]
    by_cases h1 : (update_internal_state m a).1.is_alive
    · simp only [if_pos h1]
      obtain ⟨ma, me, mb, _⟩ := mms_agent (update_internal_state m a).2
        { (update_internal_state m a).1 with
            pos := choose_action (update_internal_state m a).2
              (update_internal_state m a).1 u }
      constructor
      · intro _
        rw [me, mb]
        have := hbounds.1 h1
        exact ⟨le_of_lt this.1, this.2.1, this.2.2.1, this.2.2.2⟩
      · intro _ hdead
        rw [ma] at hdead
        simp only [show ({ (update_internal_state m a).1 with
          pos := choose_action (update_internal_state m a).2
            (update_internal_state m a).1 u } : AgentState).is_alive
          = (update_internal_state m a).1.is_alive from rfl] at hdead
        exact absurd hdead (by simp [h1])
    · simp only [if_neg h1]
      have hdeadfacts := hbounds.2 (Bool.not_eq_true _ ▸ (by simpa using h1))
      exact ⟨fun hl => absurd hl h1, fun _ _ => hdeadfacts⟩
  · simp only [agentStep, if_neg ha]
    exact ⟨h, fun hl => absurd hl ha⟩

/-- The sweep preserves the per-agent invariant for every kept agent and
leaves every newly-dead agent with alive = false, energy 0 and
precision 0. -/
lemma sweep_inv (us : ℕ → ℝ) :
    ∀ (l : List AgentState) (i : ℕ) (m : ModelState), (∀ a ∈ l, AgentInv a) →
      (∀ a ∈ (sweep us i m l).1, AgentInv a) ∧
      (∀ d ∈ (sweep us i m l).2.1,
        d.is_alive = false ∧ d.E_int = 0 ∧ d.current_beta = 0) := by
  intro l
  induction l with
  | nil =>
    intro i m _
    exact ⟨fun a hmem => absurd hmem (List.not_mem_nil a),
      fun d hmem => absurd hmem (List.not_mem_nil d)⟩
  | cons a rest ih =>
    intro i m h
    have hstep := agentStep_inv m a (us i) (h a (List.mem_cons_self a rest))
    have hrest := ih (i + 1) (agentStep m a (us i)).2
      (fun b hb => h b (List.mem_cons_of_mem a hb))
    simp only [sweep]
    split_ifs with hcond
    · refine ⟨hrest.1, ?_⟩
      intro d hd
      rcases List.mem_cons.mp hd with hd1 | hd2
      · subst hd1
        have halive : (agentStep m a (us i)).1.is_alive = false := by
          simpa using hcond.2
        exact ⟨halive, hstep.2 hcond.1 halive⟩
      · exact hrest.2 d hd2
    · refine ⟨?_, hrest.2⟩
      intro b hb
      rcases List.mem_cons.mp hb with hb1 | hb2
      · exact hb1 ▸ hstep.1
      · exact hrest.1 b hb2

/-- Every spawned agent satisfies the invariant: birth energy is clamped
into [40, 95] and precision starts at the base value 6. -/
lemma spawn_inv (w h : ℤ) :
    ∀ (n : ℕ) (inst g : Rng) (id0 : ℕ),
      ∀ a ∈ (spawn_agents w h n inst g id0).1, AgentInv a := by
  intro n
  induction n with
  | zero =>
    intro inst g id0 a hmem
    exact absurd hmem (List.not_mem_nil a)
  | succ k ih =>
    intro inst g id0 a hmem
    simp only [spawn_agents] at hmem
    rcases List.mem_cons.mp hmem with h1 | h2
    · subst h1
      intro _
      refine ⟨?_, ?_, ?_, ?_⟩
      · simp only [np_uniform, Rng.next]
        exact le_trans (by norm_num [INIT_ENERGY_MIN]) (le_max_left _ _)
      · simp only [np_uniform, Rng.next]
        exact max_le (by norm_num [INIT_ENERGY_MIN, MAX_ENERGY])
          (le_trans (min_le_left _ _) (by norm_num [INIT_ENERGY_MAX, MAX_ENERGY]))
      · norm_num [BETA_BASE]
      · norm_num [BETA_BASE, BETA_MAX]
    · exact ih _ _ _ a h2

/-- One tick preserves the model-wide invariant. -/
lemma modelStep_inv (m : ModelState) (us : ℕ → ℝ)
    (h : ∀ a ∈ m.agents, AgentInv a) :
    (∀ a ∈ (modelStep m us).agents, AgentInv a) ∧
    (∀ d ∈ stepDead m us,
      d.is_alive = false ∧ d.E_int = 0 ∧ d.current_beta = 0) :=
  sweep_inv us m.agents 0 m h

/-- C7: starting from any freshly initialised model, at every tick
boundary every agent in the active set satisfies 0 ≤ energy ≤ max_energy
and precision in [0.5, precision_max], and every agent that dies during
the next tick ends that tick dead with energy 0 and precision 0. -/
theorem tick_boundary_invariant (w h : ℤ) (n : ℕ) (inst g : Rng)
    (uss : ℕ → ℕ → ℝ) :
    ∀ k, (∀ a ∈ (runModel (initModel w h n inst g) uss k).agents, AgentInv a) ∧
      (∀ d ∈ stepDead (runModel (initModel w h n inst g) uss k) (uss k),
        d.is_alive = false ∧ d.E_int = 0 ∧ d.current_beta = 0) := by
  have hinv : ∀ k, ∀ a ∈ (runModel (initModel w h n inst g) uss k).agents,
      AgentInv a := by
    intro k
    induction k with
    | zero => exact spawn_inv w h n inst _ 0
    | succ j ihj => exact (modelStep_inv _ (uss j) ihj).1
  exact fun k => ⟨hinv k, (modelStep_inv _ (uss k) (hinv k)).2⟩

/-- The zero-stream random source, for concrete initialisations. -/
noncomputable def instW : Rng := ⟨fun _ => 0, 0⟩

/-- The single agent spawned by initModel 2 2 1 from zero streams:
birth energy clamps to 40, placement to the origin. -/
noncomputable def witAgent : AgentState :=
  { id := 0, is_alive := true, T_int := 10.0, E_int := 40,
    prev_total_error := none, valence_integrated := 0, valence_bound := 2.0,
    current_beta := BETA_BASE, visits := [], visit_cleanup_counter := 0,
    food_signal_timer := 0, pos := (0, 0) }

/-- Witness for C7: at tick boundary 0 of a concrete one-agent world the
spawned agent satisfies the invariant bounds. -/
theorem tick_boundary_invariant_witness :
    0 ≤ witAgent.E_int ∧ witAgent.E_int ≤ MAX_ENERGY ∧
    0.5 ≤ witAgent.current_beta ∧ witAgent.current_beta ≤ BETA_MAX :=
  ((tick_boundary_invariant 2 2 1 instW instW (fun _ _ => 0) 0).1 witAgent
    (by norm_num [runModel, initModel, spawn_agents, generate_food_field,
      np_uniform, np_randint, py_randint, Rng.next, instW, witAgent,
      INIT_ENERGY_MIN, INIT_ENERGY_MAX])) rfl

/-! ### Death handling (C3) -/

/-- When the physiology update kills an agent, energy is clamped to 0,
precision zeroed, and the valence/memory state and position are left
exactly as they were: the remaining per-tick steps are skipped. -/
lemma uis_death_effects (m : ModelState) (a : AgentState)
    (ha : a.is_alive = true)
    (hd : (update_internal_state m a).1.is_alive = false) :
    (update_internal_state m a).1.E_int = 0 ∧
    (update_internal_state m a).1.current_beta = 0 ∧
    (update_internal_state m a).1.pos = a.pos ∧
    (update_internal_state m a).1.visits = a.visits ∧
    (update_internal_state m a).1.valence_integrated = a.valence_integrated ∧
    (update_internal_state m a).1.prev_total_error = a.prev_total_error ∧
    (update_internal_state m a).1.valence_bound = a.valence_bound := by
  simp only [update_internal_state, if_pos ha] at hd ⊢
  split_ifs at hd ⊢ <;> simp_all

/-- An agent that comes out of its full step dead took the early-return
path: its step is exactly the physiology update, nothing more. -/
lemma agentStep_death (m : ModelState) (a : AgentState) (u : ℝ)
    (ha : a.is_alive = true)
    (hd : (agentStep m a u).1.is_alive = false) :
    agentStep m a u = update_internal_state m a := by
  simp only [agentStep, if_pos ha] at hd ⊢
  by_cases h1 : (update_internal_state m a).1.is_alive
  · exfalso
    simp only [if_pos h1] at hd
    have hkeep := (mms_agent (update_internal_state m a).2
      { (update_internal_state m a).1 with
          pos := choose_action (update_internal_state m a).2
            (update_internal_state m a).1 u }).1
    rw [hkeep] at hd
    simp only [h1] at hd
    simp at hd
  · simp only [if_neg h1]

/-- Projection of the sweep output ids: kept ids followed by newly-dead
ids are a permutation of the input ids. -/
lemma uis_id (m : ModelState) (a : AgentState) :
    (update_internal_state m a).1.id = a.id := by
  simp only [update_internal_state]
  split_ifs <;> rfl

lemma agentStep_id (m : ModelState) (a : AgentState) (u : ℝ) :
    (agentStep m a u).1.id = a.id := by
  simp only [agentStep]
  by_cases ha : a.is_alive
  · simp only [if_pos ha]
    by_cases h1 : (update_internal_state m a).1.is_alive
    · simp only [if_pos h1]
      exact ((mms_agent (update_internal_state m a).2
        { (update_internal_state m a).1 with
            pos := choose_action (update_internal_state m a).2
              (update_internal_state m a).1 u }).2.2.2).trans (uis_id m a)
    · simp only [if_neg h1]
      exact uis_id m a
  · simp only [if_neg ha]

lemma sweep_ids_perm (us : ℕ → ℝ) :
    ∀ (l : List AgentState) (i : ℕ) (m : ModelState),
      ((sweep us i m l).1.map AgentState.id ++
        (sweep us i m l).2.1.map AgentState.id).Perm
        (l.map AgentState.id) := by
  intro l
  induction l with
  | nil => intro i m; simp [sweep]
  | cons a rest ih =>
    intro i m
    simp only [sweep]
    split_ifs with hcond
    · simp only [List.map_cons]
      refine List.Perm.trans List.perm_middle ?_
      rw [agentStep_id m a (us i)]
      exact (ih (i + 1) (agentStep m a (us i)).2).cons a.id
    · simp only [List.map_cons, List.cons_append]
      rw [agentStep_id m a (us i)]
      exact (ih (i + 1) (agentStep m a (us i)).2).cons a.id

/-- Newly-dead agents of a tick are dead with energy 0 and precision 0
(no invariant needed). -/
lemma sweep_dead_clamped (us : ℕ → ℝ) :
    ∀ (l : List AgentState) (i : ℕ) (m : ModelState),
      ∀ d ∈ (sweep us i m l).2.1,
        d.is_alive = false ∧ d.E_int = 0 ∧ d.current_beta = 0 := by
  intro l
  induction l with
  | nil => intro i m d hd; exact absurd hd (List.not_mem_nil d)
  | cons a rest ih =>
    intro i m d hd
    simp only [sweep] at hd
    split_ifs at hd with hcond
    · rcases List.mem_cons.mp hd with hd1 | hd2
      · have halive : a.is_alive = true := hcond.1
        have hdead : (agentStep m a (us i)).1.is_alive = false := by
          simpa using hcond.2
        have heq := agentStep_death m a (us i) halive hdead
        have heff := uis_death_effects m a halive (heq ▸ hdead)
        subst hd1
        rw [heq]
        exact ⟨heq ▸ hdead, heff.1, heff.2.1⟩
      · exact ih (i + 1) (agentStep m a (us i)).2 d hd2
    · exact ih (i + 1) (agentStep m a (us i)).2 d hd

/-- The dead counter advances by exactly the number of alive-to-dead
transitions of the tick. -/
lemma modelStep_dead_count (m : ModelState) (us : ℕ → ℝ) :
    (modelStep m us).dead_count = m.dead_count + (stepDead m us).length := by
  show (sweep us 0 m m.agents).2.2.dead_count +
    (sweep us 0 m m.agents).2.1.length = _
  rw [(sweep_model us m.agents 0 m).2.2.2.2.1]
  rfl

/-- C3: an agent whose energy reaches 0 during a tick is clamped to
energy 0, marked dead with precision 0, skips its move and its valence and
memory/scent writes; every newly-dead agent of the tick is clamped the
same way; the dead counter grows by exactly the number of deaths; and
under distinct ids no newly-dead agent remains in the active set after the
tick. -/
theorem death_handling :
    (∀ (m : ModelState) (a : AgentState) (u : ℝ),
      a.is_alive = true → (agentStep m a u).1.is_alive = false →
      (agentStep m a u).1.E_int = 0 ∧
      (agentStep m a u).1.current_beta = 0 ∧
      (agentStep m a u).1.pos = a.pos ∧
      (agentStep m a u).1.visits = a.visits ∧
      (agentStep m a u).1.valence_integrated = a.valence_integrated ∧
      (agentStep m a u).1.prev_total_error = a.prev_total_error ∧
      (agentStep m a u).2.food_scent = m.food_scent ∧
      (agentStep m a u).2.shared_memory = m.shared_memory) ∧
    (∀ (m : ModelState) (us : ℕ → ℝ),
      ∀ d ∈ stepDead m us,
        d.is_alive = false ∧ d.E_int = 0 ∧ d.current_beta = 0) ∧
    (∀ (m : ModelState) (us : ℕ → ℝ),
      (modelStep m us).dead_count = m.dead_count + (stepDead m us).length) ∧
    (∀ (m : ModelState) (us : ℕ → ℝ),
      (m.agents.map AgentState.id).Nodup →
      ∀ d ∈ stepDead m us, ∀ b ∈ (modelStep m us).agents, b.id ≠ d.id) := by
  refine ⟨?_, ?_, modelStep_dead_count, ?_⟩
  · intro m a u ha hd
    have heq := agentStep_death m a u ha hd
    have heff := uis_death_effects m a ha (heq ▸ hd)
    have hmod := uis_model m a
    rw [heq]
    exact ⟨heff.1, heff.2.1, heff.2.2.1, heff.2.2.2.1, heff.2.2.2.2.1,
      heff.2.2.2.2.2.1, hmod.2.2.2.1, hmod.2.2.2.2.1⟩
  · intro m us
    exact sweep_dead_clamped us m.agents 0 m
  · intro m us hnd d hdmem b hbmem heqid
    have hperm := sweep_ids_perm us m.agents 0 m
    have hnd2 : ((sweep us 0 m m.agents).1.map AgentState.id ++
        (sweep us 0 m m.agents).2.1.map AgentState.id).Nodup :=
      hperm.nodup_iff.mpr hnd
    have hdisj := (List.nodup_append.mp hnd2).2.2
    have hbid : b.id ∈ (sweep us 0 m m.agents).1.map AgentState.id :=
      List.mem_map_of_mem AgentState.id hbmem
    have hdid : d.id ∈ (sweep us 0 m m.agents).2.1.map AgentState.id :=
      List.mem_map_of_mem AgentState.id hdmem
    exact hdisj hbid (heqid ▸ hdid)

/-- A live agent with energy 0.1 on an empty-food world: metabolism kills
it this tick. -/
noncomputable def dyingAgent : AgentState :=
  { id := 7, is_alive := true, T_int := 10, E_int := 0.1,
    prev_total_error := none, valence_integrated := 0, valence_bound := 2,
    current_beta := BETA_BASE, visits := [], visit_cleanup_counter := 0,
    food_signal_timer := 0, pos := (0, 0) }

/-- The world holding just the dying agent. -/
noncomputable def dyingModel : ModelState :=
  { baseModel with agents := [dyingAgent] }

/-- Witness for C3 at a concrete input: the agent with energy 0.1 dies
during its step with energy clamped to 0, precision 0 and all skipped
state untouched, and the tick counts exactly its death. -/
theorem death_handling_witness :
    ((agentStep dyingModel dyingAgent 0).1.E_int = 0 ∧
      (agentStep dyingModel dyingAgent 0).1.current_beta = 0 ∧
      (agentStep dyingModel dyingAgent 0).1.pos = dyingAgent.pos ∧
      (agentStep dyingModel dyingAgent 0).1.visits = dyingAgent.visits ∧
      (agentStep dyingModel dyingAgent 0).1.valence_integrated
        = dyingAgent.valence_integrated ∧
      (agentStep dyingModel dyingAgent 0).1.prev_total_error
        = dyingAgent.prev_total_error ∧
      (agentStep dyingModel dyingAgent 0).2.food_scent = dyingModel.food_scent ∧
      (agentStep dyingModel dyingAgent 0).2.shared_memory
        = dyingModel.shared_memory) ∧
    (modelStep dyingModel (fun _ => 0)).dead_count
      = dyingModel.dead_count + (stepDead dyingModel (fun _ => 0)).length ∧
    (∀ d ∈ stepDead dyingModel (fun _ => 0),
      ∀ b ∈ (modelStep dyingModel (fun _ => 0)).agents, b.id ≠ d.id) := by
  have hd : (agentStep dyingModel dyingAgent 0).1.is_alive = false := by
    norm_num [agentStep, update_internal_state, dyingModel, dyingAgent,
      baseModel, METABOLISM, MAX_ENERGY]
  refine ⟨death_handling.1 dyingModel dyingAgent 0 rfl hd, ?_, ?_⟩
  · exact death_handling.2.2.1 dyingModel (fun _ => 0)
  · exact death_handling.2.2.2 dyingModel (fun _ => 0)
      (by simp [dyingModel, baseModel, dyingAgent])

/-! ### Softmax action choice safety (C6) -/

/-- The stay candidate is always legal: an agent at an in-bounds cell
always has its own cell in the candidate list. -/
lemma candidateMoves_stay (m : ModelState) (a : AgentState)
    (hin : inBounds m.width m.height a.pos) : a.pos ∈ candidateMoves m a := by
  apply List.mem_filterMap.mpr
  refine ⟨(0, 0), by simp [directions], ?_⟩
  simp [hin]

/-- Every candidate cell passed the bounds check. -/
lemma candidateMoves_inBounds (m : ModelState) (a : AgentState) :
    ∀ c ∈ candidateMoves m a, inBounds m.width m.height c := by
  intro c hc
  obtain ⟨d, _, hd⟩ := List.mem_filterMap.mp hc
  by_cases hb : inBounds m.width m.height (a.pos.1 + d.1, a.pos.2 + d.2)
  · simp only [if_pos hb, Option.some.injEq] at hd
    exact hd ▸ hb
  · simp only [if_neg hb] at hd
    exact absurd hd (by simp)

/-- Summing a list divided elementwise by a constant. -/
lemma list_sum_div (l : List ℝ) (z : ℝ) :
    (l.map (fun x => x / z)).sum = l.sum / z := by
  induction l with
  | nil => simp
  | cons x xs ih => simp [ih, add_div]

/-- Softmax probabilities are non-negative. -/
lemma softmaxProbs_nonneg (beta : ℝ) (ss : List ℝ) :
    ∀ q ∈ softmaxProbs beta ss, 0 ≤ q := by
  intro q hq
  simp only [softmaxProbs] at hq
  obtain ⟨e, he, rfl⟩ := List.mem_map.mp hq
  obtain ⟨s, _, rfl⟩ := List.mem_map.mp he
  apply div_nonneg (Real.exp_pos _).le
  apply List.sum_nonneg
  intro x hx
  obtain ⟨t, _, rfl⟩ := List.mem_map.mp hx
  exact (Real.exp_pos _).le

/-- The exponential weights of a non-empty score list have positive sum. -/
lemma softmax_denom_pos (beta : ℝ) (ss : List ℝ) (h : ss ≠ []) :
    0 < (ss.map fun s => Real.exp (beta * (s - listMax ss))).sum := by
  apply List.sum_pos
  · intro x hx
    obtain ⟨s, _, rfl⟩ := List.mem_map.mp hx
    exact Real.exp_pos _
  · simpa only [ne_eq, List.map_eq_nil] using h

/-- Softmax probabilities over a non-empty score list sum to exactly 1. -/
lemma softmaxProbs_sum (beta : ℝ) (ss : List ℝ) (h : ss ≠ []) :
    (softmaxProbs beta ss).sum = 1 := by
  simp only [softmaxProbs]
  rw [list_sum_div]
  exact div_self (ne_of_gt (softmax_denom_pos beta ss h))

/-- Inverse-CDF sampling with a draw below the total mass always lands on
a valid index. -/
lemma pick_lt_length :
    ∀ (l : List ℝ) (u : ℝ), u < l.sum → l ≠ [] → pick l u < l.length := by
  intro l
  induction l with
  | nil => intro u _ hne; exact absurd rfl hne
  | cons q qs ih =>
    intro u h _
    simp only [pick]
    split_ifs with hu
    · simp
    · cases qs with
      | nil =>
        exfalso
        simp only [List.sum_cons, List.sum_nil, add_zero] at h
        exact hu h
      | cons r rs =>
        have hlt : u - q < (r :: rs).sum := by
          simp only [List.sum_cons] at h ⊢
          linarith [h]
        simpa using Nat.succ_lt_succ (ih (u - q) hlt (by simp))

/-- The sampled action is always one of the bounds-legal candidates. -/
lemma choose_action_mem (m : ModelState) (a : AgentState) (u : ℝ)
    (ha : a.is_alive = true) (hin : inBounds m.width m.height a.pos)
    (hu1 : u < 1) : choose_action m a u ∈ candidateMoves m a := by
  have hne : candidateMoves m a ≠ [] :=
    List.ne_nil_of_mem (candidateMoves_stay m a hin)
  have hsne : (candidateMoves m a).map (candidateScore m a) ≠ [] := by
    simpa only [ne_eq, List.map_eq_nil] using hne
  have hsum := softmaxProbs_sum a.current_beta
    ((candidateMoves m a).map (candidateScore m a)) hsne
  have hlen : (softmaxProbs a.current_beta
      ((candidateMoves m a).map (candidateScore m a))).length
      = (candidateMoves m a).length := by
    simp [softmaxProbs]
  have hpne : softmaxProbs a.current_beta
      ((candidateMoves m a).map (candidateScore m a)) ≠ [] := by
    intro hnil
    rw [hnil] at hlen
    exact hne (List.length_eq_zero.mp hlen.symm)
  have hpl := pick_lt_length
    (softmaxProbs a.current_beta ((candidateMoves m a).map (candidateScore m a)))
    u (hsum.symm ▸ hu1) hpne
  simp only [choose_action, if_pos ha]
  rw [List.getD_eq_get _ _ (hlen ▸ hpl)]
  exact List.get_mem _ _ _

/-- C6: for a live agent at an in-bounds cell the candidate set is never
empty (stay is always legal), the softmax probabilities are non-negative
and sum to exactly 1, the sampled move is one of the candidates, and
every candidate is bounds-legal. -/
theorem softmax_safety (m : ModelState) (a : AgentState) (u : ℝ)
    (ha : a.is_alive = true) (hin : inBounds m.width m.height a.pos)
    (hu1 : u < 1) :
    candidateMoves m a ≠ [] ∧
    (∀ q ∈ softmaxProbs a.current_beta
        ((candidateMoves m a).map (candidateScore m a)), 0 ≤ q) ∧
    (softmaxProbs a.current_beta
        ((candidateMoves m a).map (candidateScore m a))).sum = 1 ∧
    choose_action m a u ∈ candidateMoves m a ∧
    (∀ c ∈ candidateMoves m a, inBounds m.width m.height c) := by
  have hne : candidateMoves m a ≠ [] :=
    List.ne_nil_of_mem (candidateMoves_stay m a hin)
  have hsne : (candidateMoves m a).map (candidateScore m a) ≠ [] := by
    simpa only [ne_eq, List.map_eq_nil] using hne
  exact ⟨hne, softmaxProbs_nonneg _ _, softmaxProbs_sum _ _ hsne,
    choose_action_mem m a u ha hin hu1, candidateMoves_inBounds m a⟩

/-- Witness for C6 at a concrete agent in the 2 by 2 world. -/
theorem softmax_safety_witness :
    candidateMoves baseModel dyingAgent ≠ [] ∧
    choose_action baseModel dyingAgent 0 ∈ candidateMoves baseModel dyingAgent := by
  have h := softmax_safety baseModel dyingAgent 0 rfl
    (by norm_num [inBounds, baseModel, dyingAgent]) (by norm_num)
  exact ⟨h.1, h.2.2.2.1⟩

/-! ### Random source routing (C4) -/

/-- Agent placement reads only the per-model seeded source: the positions
spawned are independent of the process-global numpy stream. -/
lemma spawn_pos_indep (w h : ℤ) :
    ∀ (n : ℕ) (inst g g' : Rng) (id0 : ℕ),
      (spawn_agents w h n inst g id0).1.map AgentState.pos
        = (spawn_agents w h n inst g' id0).1.map AgentState.pos := by
  intro n
  induction n with
  | zero => intro inst g g' id0; rfl
  | succ k ih =>
    intro inst g g' id0
    simp only [spawn_agents, List.map_cons]
    congr 1
    exact ih _ _ _ _

/-- A process-global numpy stream whose fifth draw (the first agent's
birth-energy draw, after the four food-field draws) is 50. -/
noncomputable def gA : Rng := ⟨fun i => if i = 4 then 50 else 0, 0⟩

/-- The same stream with fifth draw 60. -/
noncomputable def gB : Rng := ⟨fun i => if i = 4 then 60 else 0, 0⟩

/-- C4 counterexample: two simulations built with the SAME per-model
seeded source but different process-global numpy states end construction
in different states -- the initial agent energy is drawn from the global
numpy source, not from the seeded one, so a fixed seed does not make runs
identical. -/
theorem seed_reproducibility_claim_false :
    (initModel 40 40 1 instW gA).agents.map AgentState.E_int = [50] ∧
    (initModel 40 40 1 instW gB).agents.map AgentState.E_int = [60] ∧
    initModel 40 40 1 instW gA ≠ initModel 40 40 1 instW gB := by
  have hA : (initModel 40 40 1 instW gA).agents.map AgentState.E_int = [50] := by
    norm_num [initModel, spawn_agents, generate_food_field, np_uniform,
      np_randint, py_randint, Rng.next, gA, instW, min_def, max_def,
      INIT_ENERGY_MIN, INIT_ENERGY_MAX, FOOD_PATCH_AMOUNT_MIN,
      FOOD_PATCH_AMOUNT_MAX, NUM_FOOD_PATCHES]
  have hB : (initModel 40 40 1 instW gB).agents.map AgentState.E_int = [60] := by
    norm_num [initModel, spawn_agents, generate_food_field, np_uniform,
      np_randint, py_randint, Rng.next, gB, instW, min_def, max_def,
      INIT_ENERGY_MIN, INIT_ENERGY_MAX, FOOD_PATCH_AMOUNT_MIN,
      FOOD_PATCH_AMOUNT_MAX, NUM_FOOD_PATCHES]
  refine ⟨hA, hB, ?_⟩
  intro heq
  have hcast := congrArg (fun s => s.agents.map AgentState.E_int) heq
  simp only [hA, hB] at hcast
  norm_num at hcast

/-- C4 amended: only part of the randomness routes through the per-model
seeded source.  Agent placement does: the spawned positions are identical
across runs with the same seed no matter the global numpy state.  Food
generation, birth energy and softmax sampling read the process-global
source, so equal seeds alone do not reproduce states. -/
theorem placement_routes_through_seed (w h : ℤ) (n : ℕ) (inst g g' : Rng) :
    (initModel w h n inst g).agents.map AgentState.pos
      = (initModel w h n inst g').agents.map AgentState.pos := by
  simp only [initModel]
  exact spawn_pos_indep w h n inst _ _ 0

end Sim
